import Mathlib

/-!
Verification of the Swarm subsystem (config policy, hub state, tool handler,
and the orchestrator's wait logic) against a shallow embedding of the Rust
sources in `codex-rs/core/src/swarm/`, `codex-rs/core/src/tools/handlers/swarm.rs`
and `codex-rs/exec/src/lib.rs`.
-/

/-! ### String helpers modelling the Rust string primitives used by the code -/

/-- Code points with the Unicode White_Space property, as used by Rust's
`char::is_whitespace` (and hence `str::trim`). -/
def wsCodes : List Nat :=
  [0x09, 0x0A, 0x0B, 0x0C, 0x0D, 0x20, 0x85, 0xA0, 0x1680,
   0x2000, 0x2001, 0x2002, 0x2003, 0x2004, 0x2005, 0x2006, 0x2007,
   0x2008, 0x2009, 0x200A, 0x2028, 0x2029, 0x202F, 0x205F, 0x3000]

/-- Models Rust `char::is_whitespace`. -/
def isRustWhitespace (c : Char) : Bool :=
  wsCodes.contains c.toNat

/-- ASCII lowercasing on code points: models the per-byte mapping done by
Rust `eq_ignore_ascii_case` (uppercase ASCII letters map to lowercase,
everything else is unchanged). -/
def lowerNat (n : Nat) : Nat :=
  if 65 ≤ n ∧ n ≤ 90 then n + 32 else n

/-- The ASCII-lowercased code-point sequence of a character list. -/
def mapLower (l : List Char) : List Nat :=
  l.map (fun c => lowerNat c.toNat)

/-- Models Rust `str::eq_ignore_ascii_case`: equality of the
ASCII-lowercased code-point sequences. -/
def eqIgnoreAsciiCase (a b : String) : Bool :=
  mapLower a.data = mapLower b.data

/-- Trim whitespace from the front and the back of a character list;
models Rust `str::trim` at the character level. -/
def trimChars (l : List Char) : List Char :=
  ((l.dropWhile isRustWhitespace).reverse.dropWhile isRustWhitespace).reverse

/-- Models Rust `str::trim`. -/
def rustTrim (s : String) : String :=
  String.mk (trimChars s.data)

/-! ### Swarm configuration (`codex-rs/core/src/swarm/config.rs`) -/

structure SwarmRole where
  name : String
  model : Option String
  base_instructions : Option String
  tier : Int
  description : Option String
deriving DecidableEq, Repr

structure SwarmHierarchy where
  allow_upward_calls : Bool
  allow_same_tier_calls : Bool
deriving DecidableEq, Repr

structure SwarmHubConfig where
  leak_tracker_path : Option String
  storage_dir : Option String
deriving DecidableEq, Repr

structure SwarmConfig where
  enabled : Bool
  root_role : Option String
  default_spawn_role : Option String
  roles : List SwarmRole
  hierarchy : SwarmHierarchy
  hub : SwarmHubConfig
deriving DecidableEq, Repr

/-- `SwarmConfig::role`: trim the argument, reject an empty trimmed name,
otherwise find the first role whose name matches case-insensitively. -/
def SwarmConfig.role (cfg : SwarmConfig) (name : String) : Option SwarmRole :=
  let n := rustTrim name
  if n = "" then none
  else cfg.roles.find? (fun r => eqIgnoreAsciiCase r.name n)

/-- Models `self.roles.iter().max_by_key(|role| role.tier)`.  Rust's
`Iterator::max_by_key` folds left and replaces the current maximum whenever
the new element's key is greater *or equal*, so when several elements are
equally maximum the last one is returned. -/
def max_by_tier (roles : List SwarmRole) : Option SwarmRole :=
  roles.foldl
    (fun acc r =>
      match acc with
      | none => some r
      | some m => if m.tier ≤ r.tier then some r else some m)
    none

/-- `SwarmConfig::root_role_name`: the configured root if it resolves via
`role`, else the name of the role returned by `max_by_key` on tier. -/
def SwarmConfig.root_role_name (cfg : SwarmConfig) : Option String :=
  match cfg.root_role.bind (fun name => (cfg.role name).map (fun _ => name)) with
  | some name => some name
  | none => (max_by_tier cfg.roles).map (fun r => r.name)

/-- `SwarmConfig::can_call`. -/
def SwarmConfig.can_call (cfg : SwarmConfig) (caller_tier target_tier : Int) : Bool :=
  if caller_tier = target_tier then cfg.hierarchy.allow_same_tier_calls
  else if caller_tier > target_tier then true
  else cfg.hierarchy.allow_upward_calls

/-! ### Hub state (`codex-rs/core/src/swarm/hub.rs`)

The `VecDeque` lounge is modelled as a `List` whose head is the front of the
deque: `push_back` appends at the end, `pop_front` drops the head.  The
persistence side effects (`persist_state`, `persist_leak_tracker`) write the
already-committed in-memory snapshot to disk and never change it, so the
state-transition functions below model the in-memory mutation only. -/

structure SwarmLoungeEntry where
  text : String
  author_thread_id : Option String
  created_at_unix_ms : Nat
deriving DecidableEq, Repr

structure SwarmVoteCast where
  option : String
  weight : Int
  voter_thread_id : Option String
deriving DecidableEq, Repr

structure SwarmVote where
  id : String
  topic : String
  options : List String
  created_at_unix_ms : Nat
  votes : List SwarmVoteCast
deriving DecidableEq, Repr

structure SwarmTimerState where
  label : Option String
  duration_ms : Option Nat
  started_at_unix_ms : Option Nat
  running : Bool
deriving DecidableEq, Repr

structure SwarmLeakEntry where
  id : String
  label : String
  value : String
  context : Option String
  severity : Option String
  created_at_unix_ms : Nat
  source_thread_id : Option String
deriving DecidableEq, Repr

structure SwarmLeakTracker where
  entries : List SwarmLeakEntry
deriving DecidableEq, Repr

structure SwarmTaskEntry where
  id : String
  title : String
  status : String
  owner_thread_id : Option String
  notes : Option String
  created_at_unix_ms : Nat
deriving DecidableEq, Repr

structure SwarmEvidenceEntry where
  id : String
  summary : String
  severity : Option String
  source : Option String
  created_at_unix_ms : Nat
deriving DecidableEq, Repr

structure SwarmDecisionEntry where
  id : String
  summary : String
  rationale : Option String
  created_at_unix_ms : Nat
deriving DecidableEq, Repr

structure SwarmArtifactEntry where
  id : String
  label : String
  path : Option String
  created_at_unix_ms : Nat
deriving DecidableEq, Repr

structure SwarmHubState where
  lounge : List SwarmLoungeEntry
  votes : List SwarmVote
  timer : SwarmTimerState
  leak_tracker : SwarmLeakTracker
  leak_tracker_path : Option String
  storage_dir : Option String
  tasks : List SwarmTaskEntry
  evidence : List SwarmEvidenceEntry
  decisions : List SwarmDecisionEntry
  artifacts : List SwarmArtifactEntry
deriving DecidableEq, Repr

/-- `SwarmHubState::default`. -/
def defaultHubState : SwarmHubState :=
  { lounge := []
    votes := []
    timer := { label := none, duration_ms := none, started_at_unix_ms := none, running := false }
    leak_tracker := { entries := [] }
    leak_tracker_path := none
    storage_dir := none
    tasks := []
    evidence := []
    decisions := []
    artifacts := [] }

/-- `SwarmHub::lounge_append`: push the entry at the back, then pop one entry
from the front if the length now exceeds 500. -/
def lounge_append (entry : SwarmLoungeEntry) (s : SwarmHubState) : SwarmHubState :=
  let l := s.lounge ++ [entry]
  { s with lounge := if 500 < l.length then l.tail else l }

/-- Iterated `lounge_append` over a list of entries, left to right. -/
def lounge_append_all (es : List SwarmLoungeEntry) (s : SwarmHubState) : SwarmHubState :=
  es.foldl (fun st e => lounge_append e st) s

/-- `SwarmHub::lounge_clear`. -/
def lounge_clear (s : SwarmHubState) : SwarmHubState :=
  { s with lounge := [] }

/-- The list-level upsert of `SwarmHub::upsert_vote`: replace the first vote
whose id matches, else push at the end. -/
def upsert_vote_list (vote : SwarmVote) : List SwarmVote → List SwarmVote
  | [] => [vote]
  | w :: ws => if w.id = vote.id then vote :: ws else w :: upsert_vote_list vote ws

/-- `SwarmHub::upsert_vote`. -/
def hub_upsert_vote (vote : SwarmVote) (s : SwarmHubState) : SwarmHubState :=
  { s with votes := upsert_vote_list vote s.votes }

/-- `SwarmHub::set_timer`. -/
def set_timer (timer : SwarmTimerState) (s : SwarmHubState) : SwarmHubState :=
  { s with timer := timer }

/-- `SwarmHub::leak_tracker_set_path`.  `loaded` is the outcome of
`tokio::fs::read_to_string` followed by `serde_json::from_str` at `path`:
`none` when the file cannot be read or cannot be parsed, in which case the
in-memory tracker is kept. -/
def leak_tracker_set_path (path : String) (load_existing : Bool)
    (loaded : Option SwarmLeakTracker) (s : SwarmHubState) : SwarmHubState :=
  { s with
    leak_tracker_path := some path
    leak_tracker :=
      if load_existing then
        match loaded with
        | some parsed => parsed
        | none => s.leak_tracker
      else s.leak_tracker }

/-- `SwarmHub::leak_tracker_add`. -/
def leak_tracker_add (entry : SwarmLeakEntry) (s : SwarmHubState) : SwarmHubState :=
  { s with leak_tracker := { entries := s.leak_tracker.entries ++ [entry] } }

/-- `SwarmHub::leak_tracker_clear`. -/
def leak_tracker_clear (s : SwarmHubState) : SwarmHubState :=
  { s with leak_tracker := { entries := [] } }

/-- `SwarmHub::task_add`. -/
def task_add (entry : SwarmTaskEntry) (s : SwarmHubState) : SwarmHubState :=
  { s with tasks := s.tasks ++ [entry] }

/-- `SwarmHub::evidence_add`. -/
def evidence_add (entry : SwarmEvidenceEntry) (s : SwarmHubState) : SwarmHubState :=
  { s with evidence := s.evidence ++ [entry] }

/-- `SwarmHub::decision_add`. -/
def decision_add (entry : SwarmDecisionEntry) (s : SwarmHubState) : SwarmHubState :=
  { s with decisions := s.decisions ++ [entry] }

/-- `SwarmHub::artifact_add`. -/
def artifact_add (entry : SwarmArtifactEntry) (s : SwarmHubState) : SwarmHubState :=
  { s with artifacts := s.artifacts ++ [entry] }

/-! ### Registry records (`codex-rs/core/src/swarm/registry.rs`) -/

structure SwarmAgentInfo where
  thread_id : String
  role : String
  model : Option String
  tier : Int
  parent_thread_id : Option String
deriving DecidableEq, Repr

/-! ### Orchestrator wait logic (`codex-rs/exec/src/lib.rs`) -/

inductive AgentStatus
  | pendingInit
  | running
  | completed (message : Option String)
  | errored (message : String)
  | shutdown
  | notFound
deriving DecidableEq, Repr

/-- `is_final_status`: everything except `PendingInit` and `Running`. -/
def is_final_status : AgentStatus → Bool
  | .pendingInit => false
  | .running => false
  | _ => true

def MIN_WAIT_TIMEOUT_MS : Int := 10000
def DEFAULT_WAIT_TIMEOUT_MS : Int := 30000
def MAX_WAIT_TIMEOUT_MS : Int := 300000

/-- Models `i64::clamp(self, min, max)`. -/
def intClamp (x lo hi : Int) : Int :=
  if x < lo then lo else if x > hi then hi else x

/-- `resolve_wait_timeout`. -/
def resolve_wait_timeout (timeout_ms : Option Int) : Except String Int :=
  match timeout_ms with
  | none => .ok DEFAULT_WAIT_TIMEOUT_MS
  | some t =>
    if t ≤ 0 then .error "timeout_ms must be positive"
    else .ok (intClamp t MIN_WAIT_TIMEOUT_MS MAX_WAIT_TIMEOUT_MS)

/-- The subscription loop of `SwarmAction::Wait`: `watch` gives the current
value of each id's status watch at subscription time (`none` models
`CodexErr::ThreadNotFound` from `subscribe_agent_status`).  An unknown id is
collected as `NotFound`; an id whose initial watched status is already final
is collected immediately. -/
def initial_final_statuses (watch : String → Option AgentStatus)
    (ids : List String) : List (String × AgentStatus) :=
  ids.foldl
    (fun acc id =>
      match watch id with
      | some st => if is_final_status st then acc ++ [(id, st)] else acc
      | none => acc ++ [(id, AgentStatus.notFound)])
    []

structure SwarmWaitOutput where
  status : List (String × AgentStatus)
  timed_out : Bool
deriving DecidableEq, Repr

/-- The result selection of `SwarmAction::Wait`: if any initial final
statuses were collected they are the result; otherwise the result is the
outcome of racing the watch futures against the deadline, modelled by
`slow` (`[result]` for a first final status, `[]` on deadline or join
failure).  `timed_out` is emptiness of the final status map. -/
def wait_statuses (watch : String → Option AgentStatus) (ids : List String)
    (slow : List (String × AgentStatus)) : SwarmWaitOutput :=
  let init := initial_final_statuses watch ids
  let statuses := if init.isEmpty then slow else init
  { status := statuses, timed_out := statuses.isEmpty }

/-! ### Tool handler (`codex-rs/core/src/tools/handlers/swarm.rs`) -/

inductive SwarmHubArgs
  | loungeAppend (text : String)
  | loungeRead (limit : Option Nat)
  | loungeClear
  | voteCreate (topic : String) (options : List String)
  | voteCast (vote_id : String) (option : String) (weight : Option Int)
  | voteStatus (vote_id : Option String)
  | timerStart (label : Option String) (duration_ms : Option Nat)
  | timerStop
  | timerStatus
  | leakTrackerSetPath (path : String) (load_existing : Option Bool)
  | leakTrackerAdd (label : String) (value : String)
      (context : Option String) (severity : Option String)
  | leakTrackerList (limit : Option Nat)
  | leakTrackerClear
  | taskAdd (title : String) (status : Option String) (notes : Option String)
  | taskList (limit : Option Nat)
  | evidenceAdd (summary : String) (severity : Option String) (source : Option String)
  | evidenceList (limit : Option Nat)
  | decisionAdd (summary : String) (rationale : Option String)
  | decisionList (limit : Option Nat)
  | artifactAdd (label : String) (path : Option String)
  | artifactList (limit : Option Nat)
deriving DecidableEq, Repr

/-- Session-supplied inputs of a single handler invocation:
`author_thread_id` is `thread_id_string(Some(session.conversation_id))`,
`now_ms` the value of `now_unix_ms()`, `fresh_id` the freshly generated
`Uuid::new_v4().to_string()`, `agent_info` the result of
`swarm_registry.get(session.conversation_id)`, and `leak_load` the outcome
of reading and parsing the file passed to `leak_tracker_set_path`. -/
structure ToolCtx where
  author_thread_id : Option String
  now_ms : Nat
  fresh_id : String
  agent_info : Option SwarmAgentInfo
  leak_load : Option SwarmLeakTracker
deriving Repr

inductive SwarmOutput
  | okTrue
  | loungeEntries (entries : List SwarmLoungeEntry)
  | vote (vote : SwarmVote)
  | votes (votes : List SwarmVote)
  | timer (timer : SwarmTimerState)
  | leakEntries (entries : List SwarmLeakEntry)
  | task (task : SwarmTaskEntry)
  | tasks (tasks : List SwarmTaskEntry)
  | evidence (entry : SwarmEvidenceEntry)
  | evidenceEntries (entries : List SwarmEvidenceEntry)
  | decision (entry : SwarmDecisionEntry)
  | decisions (entries : List SwarmDecisionEntry)
  | artifact (entry : SwarmArtifactEntry)
  | artifacts (entries : List SwarmArtifactEntry)
deriving DecidableEq, Repr

/-- `default_vote_weight`: 1 when the caller is not in the registry,
2 when its registered role is "scholar" (ASCII-case-insensitive) or its
tier is at least 2, otherwise 1. -/
def default_vote_weight (info : Option SwarmAgentInfo) : Int :=
  match info with
  | none => 1
  | some info =>
    if eqIgnoreAsciiCase info.role "scholar" || decide (2 ≤ info.tier) then 2 else 1

/-- `SwarmHubHandler::handle`, modelled as a state transformer: the returned
state is the hub state after the call (unchanged on a validation error), and
the second component is the handler's result (`.error` models
`FunctionCallError::RespondToModel`). -/
def handle (args : SwarmHubArgs) (ctx : ToolCtx) (s : SwarmHubState) :
    SwarmHubState × Except String SwarmOutput :=
  match args with
  | .loungeAppend text =>
    if rustTrim text = "" then (s, .error "lounge text must be non-empty")
    else
      (lounge_append
        { text := text
          author_thread_id := ctx.author_thread_id
          created_at_unix_ms := ctx.now_ms } s,
       .ok .okTrue)
  | .loungeRead limit =>
    let limit := limit.getD s.lounge.length
    (s, .ok (.loungeEntries (s.lounge.reverse.take limit)))
  | .loungeClear => (lounge_clear s, .ok .okTrue)
  | .voteCreate topic options =>
    if rustTrim topic = "" ∨ options = [] then
      (s, .error "vote topic and options are required")
    else
      let vote : SwarmVote :=
        { id := ctx.fresh_id
          topic := topic
          options := options
          created_at_unix_ms := ctx.now_ms
          votes := [] }
      (hub_upsert_vote vote s, .ok (.vote vote))
  | .voteCast vote_id option weight =>
    match s.votes.find? (fun v => v.id == vote_id) with
    | none => (s, .error "vote_id not found")
    | some v =>
      let w : Except String Int :=
        match weight with
        | some w => if w ≤ 0 then .error "vote weight must be positive" else .ok w
        | none => .ok (default_vote_weight ctx.agent_info)
      match w with
      | .error e => (s, .error e)
      | .ok w =>
        let v2 : SwarmVote :=
          { v with
            votes := v.votes ++
              [{ option := option, weight := w, voter_thread_id := ctx.author_thread_id }] }
        (hub_upsert_vote v2 s, .ok (.vote v2))
  | .voteStatus vote_id =>
    let votes :=
      match vote_id with
      | some vote_id => s.votes.filter (fun v => v.id == vote_id)
      | none => s.votes
    (s, .ok (.votes votes))
  | .timerStart label duration_ms =>
    (set_timer
      { label := label
        duration_ms := duration_ms
        started_at_unix_ms := some ctx.now_ms
        running := true } s,
     .ok .okTrue)
  | .timerStop =>
    let timer := { s.timer with running := false, started_at_unix_ms := none }
    (set_timer timer s, .ok (.timer timer))
  | .timerStatus => (s, .ok (.timer s.timer))
  | .leakTrackerSetPath path load_existing =>
    (leak_tracker_set_path path (load_existing.getD true) ctx.leak_load s, .ok .okTrue)
  | .leakTrackerAdd label value context severity =>
    if rustTrim label = "" ∨ rustTrim value = "" then
      (s, .error "label and value are required")
    else
      (leak_tracker_add
        { id := ctx.fresh_id
          label := label
          value := value
          context := context
          severity := severity
          created_at_unix_ms := ctx.now_ms
          source_thread_id := ctx.author_thread_id } s,
       .ok .okTrue)
  | .leakTrackerList limit =>
    let limit := limit.getD s.leak_tracker.entries.length
    (s, .ok (.leakEntries (s.leak_tracker.entries.reverse.take limit)))
  | .leakTrackerClear => (leak_tracker_clear s, .ok .okTrue)
  | .taskAdd title status notes =>
    if rustTrim title = "" then (s, .error "task title is required")
    else
      let entry : SwarmTaskEntry :=
        { id := ctx.fresh_id
          title := title
          status := status.getD "pending"
          owner_thread_id := ctx.author_thread_id
          notes := notes
          created_at_unix_ms := ctx.now_ms }
      (task_add entry s, .ok (.task entry))
  | .taskList limit =>
    let limit := limit.getD s.tasks.length
    (s, .ok (.tasks (s.tasks.reverse.take limit)))
  | .evidenceAdd summary severity source =>
    if rustTrim summary = "" then (s, .error "evidence summary is required")
    else
      let entry : SwarmEvidenceEntry :=
        { id := ctx.fresh_id
          summary := summary
          severity := severity
          source := source
          created_at_unix_ms := ctx.now_ms }
      (evidence_add entry s, .ok (.evidence entry))
  | .evidenceList limit =>
    let limit := limit.getD s.evidence.length
    (s, .ok (.evidenceEntries (s.evidence.reverse.take limit)))
  | .decisionAdd summary rationale =>
    if rustTrim summary = "" then (s, .error "decision summary is required")
    else
      let entry : SwarmDecisionEntry :=
        { id := ctx.fresh_id
          summary := summary
          rationale := rationale
          created_at_unix_ms := ctx.now_ms }
      (decision_add entry s, .ok (.decision entry))
  | .decisionList limit =>
    let limit := limit.getD s.decisions.length
    (s, .ok (.decisions (s.decisions.reverse.take limit)))
  | .artifactAdd label path =>
    if rustTrim label = "" then (s, .error "artifact label is required")
    else
      let entry : SwarmArtifactEntry :=
        { id := ctx.fresh_id
          label := label
          path := path
          created_at_unix_ms := ctx.now_ms }
      (artifact_add entry s, .ok (.artifact entry))
  | .artifactList limit =>
    let limit := limit.getD s.artifacts.length
    (s, .ok (.artifacts (s.artifacts.reverse.take limit)))

/-! ### Concrete fixtures -/

/-- `default_roles()` from `config.rs`. -/
def default_roles : List SwarmRole :=
  [{ name := "Scout", model := some "gpt-5.1-codex-mini", base_instructions := none,
     tier := 0, description := some "High-throughput triage and acquisition." },
   { name := "Scribe", model := some "gpt-5.1-codex-max", base_instructions := none,
     tier := 1, description := some "Structural mapping and deep audit." },
   { name := "Scholar", model := some "gpt-5.2-codex", base_instructions := none,
     tier := 2, description := some "High-reasoning synthesis and strategy." }]

/-- `SwarmConfig::default`. -/
def defaultSwarmConfig : SwarmConfig :=
  { enabled := false
    root_role := some "Scholar"
    default_spawn_role := some "Scribe"
    roles := default_roles
    hierarchy := { allow_upward_calls := false, allow_same_tier_calls := true }
    hub := { leak_tracker_path := none, storage_dir := none } }

def exCtx : ToolCtx :=
  { author_thread_id := some "thread-1"
    now_ms := 1000
    fresh_id := "id-1"
    agent_info := none
    leak_load := none }

/-! ### C1: the call policy predicate -/

/-- C1: for every SwarmConfig and all tiers a and b, `can_call(a, a)`
returns `hierarchy.allow_same_tier_calls`; if a > b then `can_call(a, b)`
returns true unconditionally; if a < b then `can_call(a, b)` returns
`hierarchy.allow_upward_calls`. -/
theorem can_call_spec (cfg : SwarmConfig) (a b : Int) :
    cfg.can_call a a = cfg.hierarchy.allow_same_tier_calls
    ∧ (a > b → cfg.can_call a b = true)
    ∧ (a < b → cfg.can_call a b = cfg.hierarchy.allow_upward_calls) := by
  refine ⟨by simp [SwarmConfig.can_call], fun h => ?_, fun h => ?_⟩
  · have hne : a ≠ b := by omega
    simp [SwarmConfig.can_call, hne, h]
  · have hne : a ≠ b := by omega
    have hng : ¬ a > b := by omega
    simp [SwarmConfig.can_call, hne, hng]

theorem can_call_spec_witness :
    defaultSwarmConfig.can_call 2 1 = true
    ∧ defaultSwarmConfig.can_call 1 2 = defaultSwarmConfig.hierarchy.allow_upward_calls
    ∧ defaultSwarmConfig.can_call 3 3 = defaultSwarmConfig.hierarchy.allow_same_tier_calls :=
  ⟨(can_call_spec defaultSwarmConfig 2 1).2.1 (by decide),
   (can_call_spec defaultSwarmConfig 1 2).2.2 (by decide),
   (can_call_spec defaultSwarmConfig 3 3).1⟩

/-! ### C4: wait timeout resolution -/

/-- C4: an omitted timeout_ms resolves to 30000; a non-positive timeout_ms
is rejected as an error; every positive timeout_ms is clamped into
[10000, 300000], so 5000 resolves to 10000. -/
theorem resolve_wait_timeout_spec (t : Int) :
    resolve_wait_timeout none = .ok 30000
    ∧ (t ≤ 0 → resolve_wait_timeout (some t) = .error "timeout_ms must be positive")
    ∧ (0 < t → ∃ r, resolve_wait_timeout (some t) = .ok r
        ∧ 10000 ≤ r ∧ r ≤ 300000 ∧ r = intClamp t 10000 300000)
    ∧ resolve_wait_timeout (some 5000) = .ok 10000 := by
  refine ⟨rfl, fun h => ?_, fun h => ?_, rfl⟩
  · simp [resolve_wait_timeout, h]
  · have hn : ¬ t ≤ 0 := by omega
    refine ⟨intClamp t 10000 300000, ?_, ?_, ?_, rfl⟩
    · simp [resolve_wait_timeout, hn, MIN_WAIT_TIMEOUT_MS, MAX_WAIT_TIMEOUT_MS]
    · unfold intClamp; split_ifs <;> omega
    · unfold intClamp; split_ifs <;> omega

theorem resolve_wait_timeout_spec_witness :
    resolve_wait_timeout (some (-5)) = .error "timeout_ms must be positive"
    ∧ ∃ r, resolve_wait_timeout (some 40000) = .ok r
        ∧ 10000 ≤ r ∧ r ≤ 300000 ∧ r = intClamp 40000 10000 300000 :=
  ⟨(resolve_wait_timeout_spec (-5)).2.1 (by decide),
   (resolve_wait_timeout_spec 40000).2.2.1 (by decide)⟩

/-! ### C3: the wait fast path -/

theorem initial_final_statuses_foldl (watch : String → Option AgentStatus)
    (ids : List String) (acc : List (String × AgentStatus)) :
    ids.foldl
      (fun acc id =>
        match watch id with
        | some st => if is_final_status st then acc ++ [(id, st)] else acc
        | none => acc ++ [(id, AgentStatus.notFound)])
      acc
    = acc ++ ids.filterMap
        (fun id =>
          match watch id with
          | some st => if is_final_status st then some (id, st) else none
          | none => some (id, AgentStatus.notFound)) := by
  induction ids generalizing acc with
  | nil => simp
  | cons x xs ih =>
    simp only [List.foldl_cons, List.filterMap_cons]
    cases hx : watch x with
    | none => simp [ih]
    | some st =>
      cases hf : is_final_status st with
      | true => simp [hf, ih]
      | false => simp [hf, ih]

/-- C3: each id of a wait call is looked up in its status watch; an id whose
initial watched status is already final is collected immediately, an unknown
id is collected as NotFound; when this initial collection is non-empty, wait
returns exactly that set with timed_out = false, independently of the slow
path (i.e. without waiting on the remaining ids or the deadline). -/
theorem wait_fast_path (watch : String → Option AgentStatus) (ids : List String)
    (slow : List (String × AgentStatus))
    (h : initial_final_statuses watch ids ≠ []) :
    initial_final_statuses watch ids
      = ids.filterMap
          (fun id =>
            match watch id with
            | some st => if is_final_status st then some (id, st) else none
            | none => some (id, AgentStatus.notFound))
    ∧ wait_statuses watch ids slow
      = { status := initial_final_statuses watch ids, timed_out := false } := by
  constructor
  · simpa [initial_final_statuses] using initial_final_statuses_foldl watch ids []
  · have hne : (initial_final_statuses watch ids).isEmpty = false := by
      cases hh : initial_final_statuses watch ids with
      | nil => exact absurd hh h
      | cons a l => rfl
    simp [wait_statuses, hne]

def exWatch : String → Option AgentStatus := fun id =>
  if id = "A" then some (.completed (some "ok"))
  else if id = "B" then some .running
  else none

theorem wait_fast_path_witness :
    wait_statuses exWatch ["A", "B"] [("B", AgentStatus.shutdown)]
      = { status := [("A", AgentStatus.completed (some "ok"))], timed_out := false } :=
  ((wait_fast_path exWatch ["A", "B"] [("B", AgentStatus.shutdown)] (by decide)).2).trans
    (by decide)

/-! ### C10: leak_tracker_set_path with an unreadable or unparseable file -/

/-- C10: when the file at `path` cannot be read or parsed
(`ctx.leak_load = none`), `leak_tracker_set_path` still succeeds with
`ok: true`, sets `leak_tracker_path` to `path`, and leaves the in-memory
leak tracker entries unchanged; no error is surfaced to the caller. -/
theorem leak_tracker_set_path_bad_file (s : SwarmHubState) (ctx : ToolCtx)
    (path : String) (load_existing : Option Bool) (h : ctx.leak_load = none) :
    handle (.leakTrackerSetPath path load_existing) ctx s
      = ({ s with leak_tracker_path := some path }, .ok .okTrue) := by
  unfold handle leak_tracker_set_path
  rw [h]
  cases hb : load_existing.getD true <;> simp

theorem leak_tracker_set_path_bad_file_witness :
    handle (.leakTrackerSetPath "/tmp/leaks.json" (some true)) exCtx defaultHubState
      = ({ defaultHubState with leak_tracker_path := some "/tmp/leaks.json" }, .ok .okTrue) :=
  leak_tracker_set_path_bad_file defaultHubState exCtx "/tmp/leaks.json" (some true) rfl

/-! ### C2: the lounge bound -/

/-- The at-most-`n` most recent elements of a list, in order. -/
def lastN (n : Nat) (l : List α) : List α := l.drop (l.length - n)

theorem lastN_append_lastN (n : Nat) (x t : List α) :
    lastN n (lastN n x ++ t) = lastN n (x ++ t) := by
  unfold lastN
  rw [← List.drop_append_of_le_length (Nat.sub_le x.length n)]
  rw [List.drop_drop]
  congr 1
  simp only [List.length_append, List.length_drop]
  omega

theorem lounge_append_step (e : SwarmLoungeEntry) (s : SwarmHubState)
    (h : s.lounge.length ≤ 500) :
    (lounge_append e s).lounge = lastN 500 (s.lounge ++ [e])
    ∧ (lounge_append e s).lounge.length ≤ 500 := by
  unfold lounge_append lastN
  by_cases hlen : 500 < (s.lounge ++ [e]).length
  · have h501 : (s.lounge ++ [e]).length = 501 := by
      simp only [List.length_append, List.length_cons, List.length_nil] at hlen ⊢
      omega
    simp only [if_pos hlen]
    constructor
    · have hone : (s.lounge ++ [e]).length - 500 = 1 := by omega
      rw [hone, List.drop_one]
    · simp only [List.length_tail]
      omega
  · simp only [if_neg hlen]
    constructor
    · have hz : (s.lounge ++ [e]).length - 500 = 0 := by omega
      rw [hz, List.drop_zero]
    · omega

theorem lounge_append_all_go (es : List SwarmLoungeEntry) :
    ∀ s : SwarmHubState, s.lounge.length ≤ 500 →
      (lounge_append_all es s).lounge = lastN 500 (s.lounge ++ es)
      ∧ (lounge_append_all es s).lounge.length ≤ 500 := by
  induction es with
  | nil =>
    intro s h
    refine ⟨?_, h⟩
    unfold lounge_append_all lastN
    simp only [List.foldl_nil, List.append_nil]
    have hz : s.lounge.length - 500 = 0 := by omega
    rw [hz, List.drop_zero]
  | cons e es ih =>
    intro s h
    have hstep := lounge_append_step e s h
    have ih2 := ih (lounge_append e s) hstep.2
    unfold lounge_append_all at ih2 ⊢
    simp only [List.foldl_cons]
    refine ⟨?_, ih2.2⟩
    rw [ih2.1, hstep.1, lastN_append_lastN]
    congr 1
    simp

/-- C2 (amended): for every hub state whose lounge holds at most 500
entries (in particular any state reachable by appends from the default
state), after every sequence of lounge_append calls the lounge length is
at most 500 and the retained entries are the at-most-500 most recent
entries in insertion order. -/
theorem lounge_append_bounded (s : SwarmHubState) (es : List SwarmLoungeEntry)
    (h : s.lounge.length ≤ 500) :
    (lounge_append_all es s).lounge.length ≤ 500
    ∧ (lounge_append_all es s).lounge = lastN 500 (s.lounge ++ es) :=
  ⟨(lounge_append_all_go es s h).2, (lounge_append_all_go es s h).1⟩

theorem lounge_append_bounded_witness :
    (lounge_append_all
        [{ text := "m0", author_thread_id := none, created_at_unix_ms := 0 },
         { text := "m1", author_thread_id := none, created_at_unix_ms := 1 }]
        defaultHubState).lounge.length ≤ 500
    ∧ (lounge_append_all
        [{ text := "m0", author_thread_id := none, created_at_unix_ms := 0 },
         { text := "m1", author_thread_id := none, created_at_unix_ms := 1 }]
        defaultHubState).lounge
      = lastN 500 (defaultHubState.lounge ++
          [{ text := "m0", author_thread_id := none, created_at_unix_ms := 0 },
           { text := "m1", author_thread_id := none, created_at_unix_ms := 1 }]) :=
  lounge_append_bounded defaultHubState
    [{ text := "m0", author_thread_id := none, created_at_unix_ms := 0 },
     { text := "m1", author_thread_id := none, created_at_unix_ms := 1 }]
    (by decide)

def overfullLounge : List SwarmLoungeEntry :=
  List.replicate 501 { text := "m", author_thread_id := none, created_at_unix_ms := 0 }

def overfullState : SwarmHubState := { defaultHubState with lounge := overfullLounge }

def xEntry : SwarmLoungeEntry :=
  { text := "x", author_thread_id := none, created_at_unix_ms := 0 }

set_option maxRecDepth 8000 in
/-- C2 counterexample: from a hub state whose lounge already holds 501
entries, a single lounge_append leaves 501 entries, so the lounge length is
not reduced to 500 and the claimed bound of 500 does not hold for every hub
state. -/
theorem lounge_append_counterexample :
    (lounge_append xEntry overfullState).lounge.length = 501
    ∧ 500 < (lounge_append xEntry overfullState).lounge.length := by
  have h1 : overfullState.lounge = overfullLounge := rfl
  have hlen : (overfullState.lounge ++ [xEntry]).length = 502 := by
    rw [List.length_append, h1]
    unfold overfullLounge
    rw [List.length_replicate]
    rfl
  have hmain : (lounge_append xEntry overfullState).lounge.length = 501 := by
    show (if 500 < (overfullState.lounge ++ [xEntry]).length
        then (overfullState.lounge ++ [xEntry]).tail
        else overfullState.lounge ++ [xEntry]).length = 501
    have hc : 500 < (overfullState.lounge ++ [xEntry]).length := by
      rw [hlen]; norm_num
    rw [if_pos hc, List.length_tail, hlen]
  exact ⟨hmain, by rw [hmain]; norm_num⟩

/-! ### C5: vote upsert -/

theorem upsert_vote_list_spec (v : SwarmVote) :
    ∀ l : List SwarmVote, l.countP (fun w => w.id == v.id) ≤ 1 →
      (upsert_vote_list v l).countP (fun w => w.id == v.id) = 1
      ∧ (∀ w ∈ upsert_vote_list v l, w.id = v.id → w = v)
      ∧ ((∀ w ∈ l, w.id ≠ v.id) → upsert_vote_list v l = l ++ [v]) := by
  intro l
  induction l with
  | nil =>
    intro _
    refine ⟨by simp [upsert_vote_list], ?_, by simp [upsert_vote_list]⟩
    intro w hw _
    simpa [upsert_vote_list] using hw
  | cons x xs ih =>
    intro h
    rw [List.countP_cons] at h
    by_cases hx : x.id = v.id
    · have hcx : (fun w : SwarmVote => w.id == v.id) x = true := by simp [hx]
      have hxs : xs.countP (fun w => w.id == v.id) = 0 := by
        rw [if_pos (by simp [hx])] at h; omega
      have hnone : ∀ w ∈ xs, w.id ≠ v.id := by
        intro w hw
        have := List.countP_eq_zero.mp hxs w hw
        simpa using this
      refine ⟨?_, ?_, ?_⟩
      · simp only [upsert_vote_list, if_pos hx]
        rw [List.countP_cons]
        simp [hxs]
      · intro w hw hid
        simp only [upsert_vote_list, if_pos hx, List.mem_cons] at hw
        rcases hw with rfl | hw
        · rfl
        · exact absurd hid (hnone w hw)
      · intro hall
        exact absurd hx (hall x (by simp))
    · have hcx : (fun w : SwarmVote => w.id == v.id) x = false := by simp [hx]
      have hxs : xs.countP (fun w => w.id == v.id) ≤ 1 := by
        rw [if_neg (by simp [hx])] at h; omega
      obtain ⟨ih1, ih2, ih3⟩ := ih hxs
      refine ⟨?_, ?_, ?_⟩
      · simp only [upsert_vote_list, if_neg hx]
        rw [List.countP_cons]
        simp [hcx, ih1]
      · intro w hw hid
        simp only [upsert_vote_list, if_neg hx, List.mem_cons] at hw
        rcases hw with rfl | hw
        · exact absurd hid hx
        · exact ih2 w hw hid
      · intro hall
        have hxs2 : ∀ w ∈ xs, w.id ≠ v.id := fun w hw => hall w (by simp [hw])
        simp only [upsert_vote_list, if_neg hx, ih3 hxs2]
        simp

/-- C5 (amended): for every hub state in which at most one existing vote
has id `v.id` (an invariant maintained by the hub's own operations starting
from the default state) and every vote v: after upsert_vote(v), the
snapshot contains exactly one vote whose id equals `v.id`, and that vote
equals v; an existing vote with matching id is fully replaced, and when no
vote matches, v is appended. -/
theorem upsert_vote_unique (s : SwarmHubState) (v : SwarmVote)
    (h : s.votes.countP (fun w => w.id == v.id) ≤ 1) :
    (hub_upsert_vote v s).votes.countP (fun w => w.id == v.id) = 1
    ∧ (∀ w ∈ (hub_upsert_vote v s).votes, w.id = v.id → w = v)
    ∧ ((∀ w ∈ s.votes, w.id ≠ v.id) → (hub_upsert_vote v s).votes = s.votes ++ [v]) :=
  upsert_vote_list_spec v s.votes h

def voteT1 : SwarmVote :=
  { id := "a", topic := "t1", options := ["x"], created_at_unix_ms := 0, votes := [] }

def voteT2 : SwarmVote :=
  { id := "a", topic := "t2", options := ["y"], created_at_unix_ms := 1, votes := [] }

def voteT3 : SwarmVote :=
  { id := "a", topic := "t3", options := ["z"], created_at_unix_ms := 2, votes := [] }

def dupVoteState : SwarmHubState := { defaultHubState with votes := [voteT1, voteT2] }

theorem upsert_vote_unique_witness :
    (hub_upsert_vote voteT3 { defaultHubState with votes := [voteT1] }).votes.countP
        (fun w => w.id == voteT3.id) = 1
    ∧ (∀ w ∈ (hub_upsert_vote voteT3 { defaultHubState with votes := [voteT1] }).votes,
        w.id = voteT3.id → w = voteT3)
    ∧ ((∀ w ∈ ({ defaultHubState with votes := [voteT1] } : SwarmHubState).votes,
          w.id ≠ voteT3.id) →
        (hub_upsert_vote voteT3 { defaultHubState with votes := [voteT1] }).votes
          = ({ defaultHubState with votes := [voteT1] } : SwarmHubState).votes ++ [voteT3]) :=
  upsert_vote_unique { defaultHubState with votes := [voteT1] } voteT3 (by decide)

/-- C5 counterexample: in a hub state holding two votes that share id "a",
upserting a vote with id "a" replaces only the first match, so the
resulting snapshot still contains two votes with that id, and one of them
differs from the upserted vote. -/
theorem upsert_vote_counterexample :
    (hub_upsert_vote voteT3 dupVoteState).votes.countP
        (fun w => w.id == voteT3.id) = 2
    ∧ voteT2 ∈ (hub_upsert_vote voteT3 dupVoteState).votes
    ∧ voteT2 ≠ voteT3 := by
  refine ⟨by decide, by decide, by decide⟩

/-! ### C9: root role resolution -/

theorem max_by_tier_go :
    ∀ (l : List SwarmRole) (m : SwarmRole),
      ∃ r, l.foldl
          (fun acc r =>
            match acc with
            | none => some r
            | some m => if m.tier ≤ r.tier then some r else some m)
          (some m) = some r
        ∧ m.tier ≤ r.tier
        ∧ (∀ s ∈ l, s.tier ≤ r.tier)
        ∧ ((r = m ∧ ∀ s ∈ l, s.tier < m.tier)
           ∨ ∃ l1 l2, l = l1 ++ r :: l2 ∧ ∀ s ∈ l2, s.tier < r.tier) := by
  intro l
  induction l with
  | nil =>
    intro m
    exact ⟨m, rfl, le_refl _, by simp, Or.inl ⟨rfl, by simp⟩⟩
  | cons x xs ih =>
    intro m
    by_cases hmx : m.tier ≤ x.tier
    · obtain ⟨r, hr, hxr, hbound, hdec⟩ := ih x
      refine ⟨r, ?_, le_trans hmx hxr, ?_, ?_⟩
      · simp only [List.foldl_cons, if_pos hmx]
        exact hr
      · intro s hs
        rcases List.mem_cons.mp hs with rfl | hs
        · exact hxr
        · exact hbound s hs
      · right
        rcases hdec with ⟨hre, hlt⟩ | ⟨l1, l2, heq, hlt⟩
        · subst hre
          exact ⟨[], xs, rfl, hlt⟩
        · exact ⟨x :: l1, l2, by rw [heq]; rfl, hlt⟩
    · have hxm : x.tier < m.tier := lt_of_not_le hmx
      obtain ⟨r, hr, hmr, hbound, hdec⟩ := ih m
      refine ⟨r, ?_, hmr, ?_, ?_⟩
      · simp only [List.foldl_cons, if_neg hmx]
        exact hr
      · intro s hs
        rcases List.mem_cons.mp hs with rfl | hs
        · exact le_trans (le_of_lt hxm) hmr
        · exact hbound s hs
      · rcases hdec with ⟨hre, hlt⟩ | ⟨l1, l2, heq, hlt⟩
        · left
          refine ⟨hre, ?_⟩
          intro s hs
          rcases List.mem_cons.mp hs with rfl | hs
          · exact hxm
          · exact hlt s hs
        · right
          exact ⟨x :: l1, l2, by rw [heq]; rfl, hlt⟩

theorem max_by_tier_spec (roles : List SwarmRole) (r : SwarmRole)
    (h : max_by_tier roles = some r) :
    r ∈ roles ∧ (∀ s ∈ roles, s.tier ≤ r.tier)
    ∧ ∃ l1 l2, roles = l1 ++ r :: l2 ∧ ∀ s ∈ l2, s.tier < r.tier := by
  cases roles with
  | nil => simp [max_by_tier] at h
  | cons x xs =>
    obtain ⟨r2, hr2, hxr2, hbound, hdec⟩ := max_by_tier_go xs x
    have hfold : max_by_tier (x :: xs) = some r2 := by
      unfold max_by_tier
      simp only [List.foldl_cons]
      exact hr2
    have hrr : r2 = r := by
      rw [hfold] at h
      exact Option.some.inj h
    subst hrr
    refine ⟨?_, ?_, ?_⟩
    · rcases hdec with ⟨hre, _⟩ | ⟨l1, l2, heq, _⟩
      · subst hre; simp
      · rw [heq]; simp
    · intro s hs
      rcases List.mem_cons.mp hs with rfl | hs
      · exact hxr2
      · exact hbound s hs
    · rcases hdec with ⟨hre, hlt⟩ | ⟨l1, l2, heq, hlt⟩
      · subst hre
        exact ⟨[], xs, rfl, hlt⟩
      · exact ⟨x :: l1, l2, by rw [heq]; rfl, hlt⟩

/-- C9 (amended): root_role_name() returns the configured root_role when
that name resolves to a role; otherwise it returns the name of a role with
maximum tier, and when several roles share the maximum tier it returns the
last such role in iteration order (witnessed by the decomposition: every
role after the returned one has a strictly smaller tier). -/
theorem root_role_name_spec (cfg : SwarmConfig) :
    (∀ n, cfg.root_role = some n → (cfg.role n).isSome →
      cfg.root_role_name = some n)
    ∧ (cfg.root_role.bind (fun n => (cfg.role n).map (fun _ => n)) = none →
      cfg.root_role_name = (max_by_tier cfg.roles).map (fun r => r.name))
    ∧ (∀ r, max_by_tier cfg.roles = some r →
      r ∈ cfg.roles ∧ (∀ s ∈ cfg.roles, s.tier ≤ r.tier)
      ∧ ∃ l1 l2, cfg.roles = l1 ++ r :: l2 ∧ ∀ s ∈ l2, s.tier < r.tier) := by
  refine ⟨?_, ?_, fun r h => max_by_tier_spec cfg.roles r h⟩
  · intro n hn hres
    unfold SwarmConfig.root_role_name
    rw [hn]
    obtain ⟨ro, hro⟩ := Option.isSome_iff_exists.mp hres
    simp [hro]
  · intro hnone
    unfold SwarmConfig.root_role_name
    rw [hnone]

def tieRoleA : SwarmRole :=
  { name := "a", model := none, base_instructions := none, tier := 5, description := none }

def tieRoleB : SwarmRole :=
  { name := "b", model := none, base_instructions := none, tier := 5, description := none }

def tieCfg : SwarmConfig :=
  { enabled := false
    root_role := none
    default_spawn_role := none
    roles := [tieRoleA, tieRoleB]
    hierarchy := { allow_upward_calls := false, allow_same_tier_calls := true }
    hub := { leak_tracker_path := none, storage_dir := none } }

/-- C9 counterexample: with no configured root and two roles "a" then "b"
sharing the maximum tier 5, root_role_name() returns "b", the LAST role of
maximum tier in iteration order, not the first ("a") as claimed. -/
theorem root_role_name_counterexample :
    tieCfg.root_role = none
    ∧ tieCfg.roles.map (fun r => (r.name, r.tier)) = [("a", 5), ("b", 5)]
    ∧ tieCfg.root_role_name = some "b"
    ∧ tieCfg.root_role_name ≠ some "a" := by
  refine ⟨rfl, by decide, rfl, by decide⟩

theorem root_role_name_spec_witness :
    defaultSwarmConfig.root_role_name = some "Scholar"
    ∧ (tieRoleB ∈ tieCfg.roles ∧ (∀ s ∈ tieCfg.roles, s.tier ≤ tieRoleB.tier)
       ∧ ∃ l1 l2, tieCfg.roles = l1 ++ tieRoleB :: l2 ∧ ∀ s ∈ l2, s.tier < tieRoleB.tier) :=
  ⟨(root_role_name_spec defaultSwarmConfig).1 "Scholar" rfl (by decide),
   (root_role_name_spec tieCfg).2.2 tieRoleB (by decide)⟩

/-! ### C8: role lookup invariance -/

theorem ws_contains_letter (n : Nat) (h1 : 65 ≤ n) (h2 : n ≤ 122) :
    wsCodes.contains n = false := by
  by_contra hc
  rw [Bool.not_eq_false] at hc
  have hmem : n ∈ wsCodes := by simpa using hc
  simp only [wsCodes, List.mem_cons, List.not_mem_nil, or_false] at hmem
  omega

theorem lower_eq_ws (a b : Nat) (h : lowerNat a = lowerNat b) :
    wsCodes.contains a = wsCodes.contains b := by
  unfold lowerNat at h
  split_ifs at h with h1 h2 h2
  · have : a = b := by omega
    rw [this]
  · rw [ws_contains_letter a h1.1 (by omega),
      ws_contains_letter b (by omega) (by omega)]
  · rw [ws_contains_letter a (by omega) (by omega),
      ws_contains_letter b h2.1 (by omega)]
  · rw [h]

theorem ws_lower_char (x y : Char) (h : lowerNat x.toNat = lowerNat y.toNat) :
    isRustWhitespace x = isRustWhitespace y :=
  lower_eq_ws x.toNat y.toNat h

theorem mapLower_dropWhile (l1 l2 : List Char) (h : mapLower l1 = mapLower l2) :
    mapLower (l1.dropWhile isRustWhitespace) = mapLower (l2.dropWhile isRustWhitespace) := by
  induction l1 generalizing l2 with
  | nil =>
    cases l2 with
    | nil => rfl
    | cons y ys => simp [mapLower] at h
  | cons x xs ih =>
    cases l2 with
    | nil => simp [mapLower] at h
    | cons y ys =>
      have hx : lowerNat x.toNat = lowerNat y.toNat := by
        have := congrArg List.head? h
        simpa [mapLower] using this
      have hxs : mapLower xs = mapLower ys := by
        have := congrArg List.tail h
        simpa [mapLower] using this
      have hws := ws_lower_char x y hx
      by_cases hw : isRustWhitespace x
      · rw [List.dropWhile_cons_of_pos hw, List.dropWhile_cons_of_pos (hws ▸ hw)]
        exact ih ys hxs
      · rw [List.dropWhile_cons_of_neg hw, List.dropWhile_cons_of_neg (hws ▸ hw)]
        exact h

theorem mapLower_reverse (l : List Char) : mapLower l.reverse = (mapLower l).reverse := by
  simp [mapLower]

theorem mapLower_trimChars (l1 l2 : List Char) (h : mapLower l1 = mapLower l2) :
    mapLower (trimChars l1) = mapLower (trimChars l2) := by
  unfold trimChars
  have h1 := mapLower_dropWhile l1 l2 h
  have h2 : mapLower (l1.dropWhile isRustWhitespace).reverse
      = mapLower (l2.dropWhile isRustWhitespace).reverse := by
    rw [mapLower_reverse, mapLower_reverse, h1]
  have h3 := mapLower_dropWhile _ _ h2
  rw [mapLower_reverse, mapLower_reverse, h3]

theorem dropWhile_ws_append (wa x : List Char)
    (h : ∀ c ∈ wa, isRustWhitespace c = true) :
    (wa ++ x).dropWhile isRustWhitespace = x.dropWhile isRustWhitespace := by
  induction wa with
  | nil => rfl
  | cons c cs ih =>
    rw [List.cons_append, List.dropWhile_cons_of_pos (h c (by simp))]
    exact ih (fun d hd => h d (by simp [hd]))

theorem dropWhile_ws_all (wb : List Char)
    (h : ∀ c ∈ wb, isRustWhitespace c = true) :
    wb.dropWhile isRustWhitespace = [] := by
  have := dropWhile_ws_append wb [] h
  simpa using this

theorem trimChars_ws_left (wa x : List Char)
    (h : ∀ c ∈ wa, isRustWhitespace c = true) :
    trimChars (wa ++ x) = trimChars x := by
  unfold trimChars
  rw [dropWhile_ws_append wa x h]

theorem trimChars_ws_right (x wb : List Char)
    (h : ∀ c ∈ wb, isRustWhitespace c = true) :
    trimChars (x ++ wb) = trimChars x := by
  unfold trimChars
  rw [List.dropWhile_append]
  by_cases he : (x.dropWhile isRustWhitespace).isEmpty
  · rw [if_pos he, dropWhile_ws_all wb h]
    rw [List.isEmpty_iff] at he
    rw [he]
  · rw [if_neg he, List.reverse_append]
    rw [dropWhile_ws_append wb.reverse _
      (fun c hc => h c (List.mem_reverse.mp hc))]

theorem role_trim_congr (cfg : SwarmConfig) (a b : String)
    (h : trimChars a.data = trimChars b.data) :
    cfg.role a = cfg.role b := by
  unfold SwarmConfig.role
  simp only [rustTrim, h]

theorem role_congr_lower (cfg : SwarmConfig) (m n : String)
    (h : mapLower m.data = mapLower n.data) :
    cfg.role m = cfg.role n := by
  unfold SwarmConfig.role
  have ht := mapLower_trimChars m.data n.data h
  have hemp : (rustTrim m = "") ↔ (rustTrim n = "") := by
    rw [String.ext_iff, String.ext_iff]
    show trimChars m.data = [] ↔ trimChars n.data = []
    constructor
    · intro hez
      have : mapLower (trimChars n.data) = [] := by rw [← ht, hez]; rfl
      simpa [mapLower] using this
    · intro hez
      have : mapLower (trimChars m.data) = [] := by rw [ht, hez]; rfl
      simpa [mapLower] using this
  by_cases he : rustTrim m = ""
  · rw [if_pos he, if_pos (hemp.mp he)]
  · rw [if_neg he, if_neg (fun hh => he (hemp.mpr hh))]
    have hp : (fun r : SwarmRole => eqIgnoreAsciiCase r.name (rustTrim m))
        = (fun r : SwarmRole => eqIgnoreAsciiCase r.name (rustTrim n)) := by
      funext r
      unfold eqIgnoreAsciiCase
      simp only [show (rustTrim m).data = trimChars m.data from rfl,
        show (rustTrim n).data = trimChars n.data from rfl, ht]
    rw [hp]

/-- C8: for every config, role name n, case variation m of n, and
whitespace strings w1, w2: role(w1 ++ m ++ w2) = role(n); the lookup trims
its argument and compares names ASCII-case-insensitively, and an empty
trimmed name returns none. -/
theorem role_lookup_invariance (cfg : SwarmConfig) (n m w1 w2 : String)
    (hcase : eqIgnoreAsciiCase m n = true)
    (hw1 : ∀ c ∈ w1.data, isRustWhitespace c = true)
    (hw2 : ∀ c ∈ w2.data, isRustWhitespace c = true) :
    cfg.role (w1 ++ m ++ w2) = cfg.role n
    ∧ (rustTrim n = "" → cfg.role n = none) := by
  have hlow : mapLower m.data = mapLower n.data := by
    unfold eqIgnoreAsciiCase at hcase
    exact of_decide_eq_true hcase
  constructor
  · have hdata : (w1 ++ m ++ w2).data = w1.data ++ (m.data ++ w2.data) := by
      rw [String.data_append, String.data_append, List.append_assoc]
    have htrim : trimChars (w1 ++ m ++ w2).data = trimChars m.data := by
      rw [hdata, trimChars_ws_left _ _ hw1, trimChars_ws_right _ _ hw2]
    calc cfg.role (w1 ++ m ++ w2) = cfg.role m := role_trim_congr cfg _ _ htrim
      _ = cfg.role n := role_congr_lower cfg m n hlow
  · intro he
    simp [SwarmConfig.role, he]

theorem role_lookup_invariance_witness :
    defaultSwarmConfig.role (" " ++ "sChOlAr" ++ "  ") = defaultSwarmConfig.role "Scholar"
    ∧ (rustTrim "Scholar" = "" → defaultSwarmConfig.role "Scholar" = none) :=
  role_lookup_invariance defaultSwarmConfig "Scholar" "sChOlAr" " " "  "
    (by decide) (by decide) (by decide)

/-! ### C6: vote_cast weights -/

/-- C6: for every vote_cast with no explicit weight, the recorded cast's
weight is default_vote_weight of the caller's registry entry: 2 when the
registered tier is at least 2 or the role name equals "scholar"
case-insensitively, and 1 otherwise, in particular 1 when the caller is not
in the registry; an explicit weight of at most 0 is rejected. -/
theorem vote_cast_weight (s : SwarmHubState) (ctx : ToolCtx)
    (vote_id opt : String) (v : SwarmVote) (w : Int)
    (hv : s.votes.find? (fun x => x.id == vote_id) = some v) :
    (w ≤ 0 → handle (.voteCast vote_id opt (some w)) ctx s
      = (s, .error "vote weight must be positive"))
    ∧ handle (.voteCast vote_id opt none) ctx s
      = (hub_upsert_vote
          { v with votes := v.votes ++
              [{ option := opt, weight := default_vote_weight ctx.agent_info,
                 voter_thread_id := ctx.author_thread_id }] } s,
         .ok (.vote { v with votes := v.votes ++
              [{ option := opt, weight := default_vote_weight ctx.agent_info,
                 voter_thread_id := ctx.author_thread_id }] }))
    ∧ default_vote_weight none = 1
    ∧ (∀ info : SwarmAgentInfo,
        2 ≤ info.tier ∨ eqIgnoreAsciiCase info.role "scholar" = true →
        default_vote_weight (some info) = 2)
    ∧ (∀ info : SwarmAgentInfo,
        info.tier < 2 → eqIgnoreAsciiCase info.role "scholar" = false →
        default_vote_weight (some info) = 1) := by
  refine ⟨fun h => ?_, ?_, rfl, ?_, ?_⟩
  · simp [handle, hv, h]
  · simp [handle, hv]
  · intro info hinfo
    rcases hinfo with htier | hrole
    · simp [default_vote_weight, htier]
    · simp [default_vote_weight, hrole]
  · intro info htier hrole
    have hnot : ¬ (2 ≤ info.tier) := by omega
    simp [default_vote_weight, hrole, hnot]

def scholarInfo : SwarmAgentInfo :=
  { thread_id := "t2", role := "ScHoLaR", model := none, tier := 0,
    parent_thread_id := none }

def exVote : SwarmVote :=
  { id := "v1", topic := "topic", options := ["yes", "no"],
    created_at_unix_ms := 0, votes := [] }

def exVoteState : SwarmHubState := { defaultHubState with votes := [exVote] }

theorem vote_cast_weight_witness :
    handle (.voteCast "v1" "yes" (some 0)) exCtx exVoteState
      = (exVoteState, .error "vote weight must be positive")
    ∧ default_vote_weight (some scholarInfo) = 2
    ∧ default_vote_weight none = 1 :=
  ⟨(vote_cast_weight exVoteState exCtx "v1" "yes" exVote 0 (by decide)).1 (by decide),
   (vote_cast_weight exVoteState exCtx "v1" "yes" exVote 0 (by decide)).2.2.2.1
     scholarInfo (Or.inr (by decide)),
   (vote_cast_weight exVoteState exCtx "v1" "yes" exVote 0 (by decide)).2.2.1⟩

/-! ### C7: validation failures do not mutate state -/

/-- C7: for every tool-handler action with a validation rule and every
input failing it (empty-after-trim required text fields, empty vote
options, non-positive weight, unknown vote_id), the handler returns an
error and the hub state is unchanged by the call. -/
theorem handler_validation_no_mutation (s : SwarmHubState) (ctx : ToolCtx) :
    (∀ text, rustTrim text = "" →
      handle (.loungeAppend text) ctx s = (s, .error "lounge text must be non-empty"))
    ∧ (∀ topic options, rustTrim topic = "" ∨ options = [] →
      handle (.voteCreate topic options) ctx s
        = (s, .error "vote topic and options are required"))
    ∧ (∀ vote_id opt w, s.votes.find? (fun x => x.id == vote_id) = none →
      handle (.voteCast vote_id opt w) ctx s = (s, .error "vote_id not found"))
    ∧ (∀ vote_id opt w v, s.votes.find? (fun x => x.id == vote_id) = some v → w ≤ 0 →
      handle (.voteCast vote_id opt (some w)) ctx s
        = (s, .error "vote weight must be positive"))
    ∧ (∀ label value c sev, rustTrim label = "" ∨ rustTrim value = "" →
      handle (.leakTrackerAdd label value c sev) ctx s
        = (s, .error "label and value are required"))
    ∧ (∀ title st notes, rustTrim title = "" →
      handle (.taskAdd title st notes) ctx s = (s, .error "task title is required"))
    ∧ (∀ summary sev src, rustTrim summary = "" →
      handle (.evidenceAdd summary sev src) ctx s
        = (s, .error "evidence summary is required"))
    ∧ (∀ summary rat, rustTrim summary = "" →
      handle (.decisionAdd summary rat) ctx s
        = (s, .error "decision summary is required"))
    ∧ (∀ label path, rustTrim label = "" →
      handle (.artifactAdd label path) ctx s
        = (s, .error "artifact label is required")) := by
  refine ⟨?_, ?_, ?_, ?_, ?_, ?_, ?_, ?_, ?_⟩
  · intro text h
    simp [handle, h]
  · intro topic options h
    simp [handle, h]
  · intro vote_id opt w h
    simp [handle, h]
  · intro vote_id opt w v hv hw
    simp [handle, hv, hw]
  · intro label value c sev h
    simp [handle, h]
  · intro title st notes h
    simp [handle, h]
  · intro summary sev src h
    simp [handle, h]
  · intro summary rat h
    simp [handle, h]
  · intro label path h
    simp [handle, h]

theorem handler_validation_no_mutation_witness :
    handle (.loungeAppend "  ") exCtx exVoteState
      = (exVoteState, .error "lounge text must be non-empty")
    ∧ handle (.voteCreate "t" []) exCtx exVoteState
      = (exVoteState, .error "vote topic and options are required")
    ∧ handle (.voteCast "nope" "yes" none) exCtx exVoteState
      = (exVoteState, .error "vote_id not found")
    ∧ handle (.voteCast "v1" "yes" (some (-1))) exCtx exVoteState
      = (exVoteState, .error "vote weight must be positive")
    ∧ handle (.leakTrackerAdd "" "v" none none) exCtx exVoteState
      = (exVoteState, .error "label and value are required")
    ∧ handle (.taskAdd " " none none) exCtx exVoteState
      = (exVoteState, .error "task title is required")
    ∧ handle (.evidenceAdd "" none none) exCtx exVoteState
      = (exVoteState, .error "evidence summary is required")
    ∧ handle (.decisionAdd "" none) exCtx exVoteState
      = (exVoteState, .error "decision summary is required")
    ∧ handle (.artifactAdd "" none) exCtx exVoteState
      = (exVoteState, .error "artifact label is required") :=
  ⟨(handler_validation_no_mutation exVoteState exCtx).1 "  " (by decide),
   (handler_validation_no_mutation exVoteState exCtx).2.1 "t" [] (Or.inr rfl),
   (handler_validation_no_mutation exVoteState exCtx).2.2.1 "nope" "yes" none (by decide),
   (handler_validation_no_mutation exVoteState exCtx).2.2.2.1 "v1" "yes" (-1) exVote
     (by decide) (by decide),
   (handler_validation_no_mutation exVoteState exCtx).2.2.2.2.1 "" "v" none none
     (Or.inl (by decide)),
   (handler_validation_no_mutation exVoteState exCtx).2.2.2.2.2.1 " " none none (by decide),
   (handler_validation_no_mutation exVoteState exCtx).2.2.2.2.2.2.1 "" none none (by decide),
   (handler_validation_no_mutation exVoteState exCtx).2.2.2.2.2.2.2.1 "" none (by decide),
   (handler_validation_no_mutation exVoteState exCtx).2.2.2.2.2.2.2.2 "" none (by decide)⟩
